import Mathlib

/-!
Verification development for a SMART disk-health monitor
(`src/normalizer.py`, class `DiskHealthMonitor`).

The pipeline is shallowly embedded: JSON documents become the inductive
`Json`; Python dictionary subscripting (`d[k]`, raising `KeyError`),
`dict.get`, the `in` membership test and iteration are modelled as
`Except`-valued operations so that the places where the Python code can
raise are explicit.  Numbers are modelled as `Int` (the inputs carry
integer SMART counters).  Fallible pipeline stages return
`Except String _`, successful ones plain values.
-/

/-- A JSON document as loaded by `json.load`. -/
inductive Json where
  | null
  | bool (b : Bool)
  | num (n : Int)
  | str (s : String)
  | arr (xs : List Json)
  | obj (kvs : List (String × Json))

/-- First-match association lookup on the key/value list of a JSON object
(Python dicts have unique keys, so any lookup order agrees). -/
def olookup : List (String × Json) → String → Option Json
  | [], _ => none
  | (k, v) :: rest, key => if k = key then some v else olookup rest key

/-- Python subscripting `d[k]`: `KeyError` when the key is absent,
`TypeError` when the value is not a dict at all. -/
def pyGetItem : Json → String → Except String Json
  | .obj kvs, k =>
    match olookup kvs k with
    | some v => .ok v
    | none => .error ("KeyError: " ++ k)
  | _, k => .error ("TypeError: not subscriptable: " ++ k)

/-- Python `d.get(k, default)`: total on dicts, `AttributeError` on
anything without a `get` method. -/
def pyGet : Json → String → Json → Except String Json
  | .obj kvs, k, dflt => .ok ((olookup kvs k).getD dflt)
  | _, k, _ => .error ("AttributeError: no attribute get: " ++ k)

/-- Python membership test `k in d`: key test on dicts, element test on
lists, substring test on strings, `TypeError` otherwise. -/
def hasKeyE : Json → String → Except String Bool
  | .obj kvs, k => .ok (olookup kvs k).isSome
  | .arr xs, k => .ok (xs.any fun x => match x with | .str s => s == k | _ => false)
  | .str s, k => .ok (decide (List.IsInfix k.data s.data))
  | _, _ => .error "TypeError: argument is not iterable"

/-- Python iteration `for x in j`: lists yield elements, dicts their keys,
strings their characters; other values raise `TypeError`. -/
def pyIter : Json → Except String (List Json)
  | .arr xs => .ok xs
  | .obj kvs => .ok (kvs.map fun p => .str p.1)
  | .str s => .ok (s.data.map fun c => .str ⟨[c]⟩)
  | _ => .error "TypeError: object is not iterable"

/-- A single-quote character, used by the Python `repr` rendering. -/
def pyQuote : String := ⟨[Char.ofNat 39]⟩

mutual
/-- Python `repr` of a JSON value (string escaping inside `repr` is
simplified to plain quoting; no cell in this pipeline is compared through
it). -/
def pyRepr : Json → String
  | .null => "None"
  | .bool true => "True"
  | .bool false => "False"
  | .num n => toString n
  | .str s => pyQuote ++ s ++ pyQuote
  | .arr xs => "[" ++ pyReprList xs ++ "]"
  | .obj kvs => "\x7b" ++ pyReprObj kvs ++ "\x7d"

/-- Comma-separated `repr`s of list elements. -/
def pyReprList : List Json → String
  | [] => ""
  | [x] => pyRepr x
  | x :: xs => pyRepr x ++ ", " ++ pyReprList xs

/-- Comma-separated `repr`s of dict items. -/
def pyReprObj : List (String × Json) → String
  | [] => ""
  | [(k, v)] => pyQuote ++ k ++ pyQuote ++ ": " ++ pyRepr v
  | (k, v) :: xs => pyQuote ++ k ++ pyQuote ++ ": " ++ pyRepr v ++ ", " ++ pyReprObj xs
end

/-- Python `str` of a JSON value (`str` and `repr` agree except on
strings themselves). -/
def pyStr : Json → String
  | .str s => s
  | j => pyRepr j

/-- Strip leading and trailing whitespace, as Python `int(str)` does
before parsing. -/
def pyStrip (cs : List Char) : List Char :=
  ((cs.dropWhile Char.isWhitespace).reverse.dropWhile Char.isWhitespace).reverse

/-- Digit run of a Python integer literal: digits, with single
underscores allowed between digits (the flag records whether the
previous character was an underscore). -/
def goInt : Nat → Bool → List Char → Option Nat
  | acc, false, [] => some acc
  | _, true, [] => none
  | acc, afterU, c :: rest =>
    if c.isDigit then goInt (acc * 10 + (c.toNat - 48)) false rest
    else if c = '_' ∧ afterU = false then goInt acc true rest
    else none

/-- Start of the digit run: must open with a digit. -/
def startInt : List Char → Option Nat
  | [] => none
  | c :: rest => if c.isDigit then goInt (c.toNat - 48) false rest else none

/-- Python `int(s)`: strip whitespace, optional sign, digit run;
`none` models the `ValueError` raised on anything else. -/
def pyInt? (s : String) : Option Int :=
  match pyStrip s.data with
  | '+' :: rest => (startInt rest).map Int.ofNat
  | '-' :: rest => (startInt rest).map fun n => -(n : Int)
  | cs => (startInt cs).map Int.ofNat

/-- The attribute-table scan of `extract_ata_data`: first entry whose
`"name"` equals exactly `"Reallocated_Sector_Ct"` supplies its
`"value"`; `"N/A"` when no entry matches.  `sect["name"]` itself can
raise. -/
def scanTable : List Json → Except String Json
  | [] => .ok (.str "N/A")
  | sect :: rest => do
    let name ← pyGetItem sect "name"
    match name with
    | .str s =>
      if s = "Reallocated_Sector_Ct" then pyGetItem sect "value" else scanTable rest
    | _ => scanTable rest

/-- `extract_ata_data(self, data, index)` from `src/normalizer.py`. -/
def extract_ata_data (data : Json) (index : Int) : Except String (List Json) := do
  let potBlock ← pyGetItem data "power_on_time"
  let p_on_h ← pyGet potBlock "hours" (.str "N/A")
  let tempBlock ← pyGetItem data "temperature"
  let current_temp ← pyGet tempBlock "current" (.str "N/A")
  let attrs ← pyGetItem data "ata_smart_attributes"
  let tbl ← pyGetItem attrs "table"
  let entries ← pyIter tbl
  let reallocated_sectors ← scanTable entries
  return [.num index, .str "ATA", p_on_h, current_temp, reallocated_sectors]

/-- `extract_nvme_data(self, data, index)` from `src/normalizer.py`. -/
def extract_nvme_data (data : Json) (index : Int) : Except String (List Json) := do
  let health_info ← pyGetItem data "nvme_smart_health_information"
  let p_on_h ← pyGet health_info "power_on_hours" (.str "N/A")
  let current_temp ← pyGet health_info "temperature" (.str "N/A")
  return [.num index, .str "NVMe", p_on_h, current_temp, .str "N/A"]

/-- The three views built by `analyze_data`. -/
structure Analyzed where
  ata : List (List Json)
  nvme : List (List Json)
  all : List (List Json)

/-- The classification loop of `analyze_data`, with the running
`enumerate` index made explicit. -/
def analyzeFrom : Int → List Json → Except String Analyzed
  | _, [] => .ok ⟨[], [], []⟩
  | idx, d :: rest => do
    let isAta ← hasKeyE d "ata_smart_attributes"
    if isAta then
      let disk_data ← extract_ata_data d idx
      let A ← analyzeFrom (idx + 1) rest
      return ⟨disk_data.drop 1 :: A.ata, A.nvme, disk_data :: A.all⟩
    else
      let isNvme ← hasKeyE d "nvme_smart_health_information"
      if isNvme then
        let disk_data ← extract_nvme_data d idx
        let A ← analyzeFrom (idx + 1) rest
        return ⟨A.ata, disk_data.drop 1 :: A.nvme, disk_data :: A.all⟩
      else
        analyzeFrom (idx + 1) rest

/-- `analyze_data(self, json_data)`: `enumerate(json_data, start=1)`. -/
def analyze_data (json_data : List Json) : Except String Analyzed :=
  analyzeFrom 1 json_data

/-- Sequence-number column of a list of full-view rows (first cell of
each row; rows produced by the extractors always start with `.num`). -/
def seqNums (rows : List (List Json)) : List Int :=
  rows.map fun r => match r.head? with | some (.num n) => n | _ => 0

/-- One console section of `display_report`: either a table (headers
plus data rows handed to `tabulate`) or the "none found" message. -/
inductive TableOrMsg where
  | table (headers : List String) (rows : List (List Json))
  | msg (s : String)

/-- `display_report(self, analyzed_data)`: the ATA and NVMe sections
printed to standard output, in order. -/
def display_report (A : Analyzed) : TableOrMsg × TableOrMsg :=
  (if A.ata.isEmpty then .msg "No ATA devices found."
   else .table ["Type", "Power-on Hours", "Temperature", "Reallocated Sectors"] A.ata,
   if A.nvme.isEmpty then .msg "No NVMe devices found."
   else .table ["Type", "Power-on Hours", "Temperature"] A.nvme)

/-- Does a CSV field need quoting under the QUOTE_MINIMAL rule of `csv.writer`
(delimiter, quote character, or line-terminator character present)? -/
def isCsvSpecial (c : Char) : Bool :=
  c = ',' || c = '"' || c = '\n' || c = '\r'

/-- Double every quote character, as the CSV writer does inside a quoted
field. -/
def dupQuotes : List Char → List Char
  | [] => []
  | c :: cs => if c = '"' then '"' :: '"' :: dupQuotes cs else c :: dupQuotes cs

/-- Serialize one CSV field (quote and escape only when needed). -/
def escapeFieldL (f : List Char) : List Char :=
  if f.any isCsvSpecial then '"' :: (dupQuotes f ++ ['"']) else f

/-- Serialize one CSV record: fields joined by commas. -/
def writeRowL : List (List Char) → List Char
  | [] => []
  | [f] => escapeFieldL f
  | f :: fs => escapeFieldL f ++ ',' :: writeRowL fs

/-- `csv.writer.writerow` on a list of (already stringified) fields,
without the trailing line terminator. -/
def writeRow (fields : List String) : String :=
  ⟨writeRowL (fields.map String.data)⟩

/-- Read a quoted CSV field: doubled quotes become literal quotes, a
lone quote closes the field; returns the field and the remaining input. -/
def parseQuotedL : List Char → List Char → List Char × List Char
  | [], acc => (acc.reverse, [])
  | c :: rest, acc =>
    if c = '"' then
      match rest with
      | c2 :: rest2 =>
        if c2 = '"' then parseQuotedL rest2 ('"' :: acc) else (acc.reverse, rest)
      | [] => (acc.reverse, [])
    else
      parseQuotedL rest (c :: acc)
termination_by cs _ => cs.length
decreasing_by all_goals simp_wf <;> omega

/-- Fueled CSV record reader: splits a serialized record back into its
fields (fuel at least the input length plus one never runs out). -/
def parseFieldsAux : Nat → List Char → List (List Char)
  | 0, _ => []
  | _ + 1, [] => [[]]
  | fuel + 1, c :: rest =>
    if c = '"' then
      match parseQuotedL rest [] with
      | (f, ',' :: r) => f :: parseFieldsAux fuel r
      | (f, _) => [f]
    else
      match (c :: rest).dropWhile (fun x => x != ',') with
      | ',' :: r => (c :: rest).takeWhile (fun x => x != ',') :: parseFieldsAux fuel r
      | _ => [(c :: rest).takeWhile (fun x => x != ',')]

/-- Split a serialized CSV record into its fields. -/
def parseFieldsL (cs : List Char) : List (List Char) :=
  parseFieldsAux (cs.length + 1) cs

/-- Re-parse one written CSV line into its fields. -/
def parseRow (s : String) : List String :=
  (parseFieldsL s.data).map fun l => ⟨l⟩

/-- The string `csv.writer` puts in a cell: `str` of the value, except
that `None` is written as the empty string. -/
def csvCellStr : Json → String
  | .null => ""
  | j => pyStr j

/-- The header fields written by `save_report`. -/
def csvHeader : List String :=
  ["# Device", "Type", "Power-on Hours", "Temperature", "Reallocated Sectors"]

/-- `save_report(self, analyzed_data)` as the list of records written:
header first, then one record per full-view row in order. -/
def save_report (A : Analyzed) : List (List String) :=
  csvHeader :: A.all.map (List.map csvCellStr)

/-- The serialized lines of the CSV file. -/
def csvLines (A : Analyzed) : List String :=
  (save_report A).map writeRow

/-- A plain HTML table cell. -/
def tdPlain (s : String) : String := "<td>" ++ s ++ "</td>"

/-- An HTML table cell with a CSS class. -/
def tdClass (c s : String) : String :=
  "<td class=\"" ++ c ++ "\">" ++ s ++ "</td>"

/-- The per-cell conditional styling of `_generate_html_table`:
`cell_str` is the already stringified cell value, `i` its column index. -/
def cellHtml (headers : List String) (i : Nat) (cell_str : String) : String :=
  if i = 3 ∧ headers[i]? = some "Reallocated Sectors"
      ∧ cell_str ≠ "N/A" ∧ cell_str ≠ "0" then
    match pyInt? cell_str with
    | some n => if n > 0 then tdClass "warning" cell_str else tdPlain cell_str
    | none => tdPlain cell_str
  else if i = 1 ∧ headers[i]? = some "Power-on Hours" ∧ cell_str ≠ "N/A" then
    match pyInt? cell_str with
    | some n => if n > 30000 then tdClass "warning" cell_str else tdPlain cell_str
    | none => tdPlain cell_str
  else if i = 2 ∧ headers[i]? = some "Temperature" ∧ cell_str ≠ "N/A" then
    match pyInt? cell_str with
    | some n => if n > 50 then tdClass "danger" cell_str else tdPlain cell_str
    | none => tdPlain cell_str
  else
    tdPlain cell_str

/-- The cell loop of `_generate_html_table`: cells whose index reaches
the header count are skipped (`continue`); every other cell is rendered
through `cellHtml` on `str(cell)`. -/
def cellsFrom (headers : List String) : Nat → List Json → String
  | _, [] => ""
  | i, c :: cs =>
    (if i < headers.length then cellHtml headers i (pyStr c) else "")
      ++ cellsFrom headers (i + 1) cs

/-- One rendered HTML table row. -/
def rowHtml (headers : List String) (row : List Json) : String :=
  "<tr>" ++ cellsFrom headers 0 row ++ "</tr>\n"

/-- `_generate_html_table(self, data, headers)` from `src/normalizer.py`. -/
def generate_html_table (headers : List String) (data : List (List Json)) : String :=
  "<table>\n<tr>"
    ++ String.join (headers.map fun h => "<th>" ++ h ++ "</th>")
    ++ "</tr>\n"
    ++ String.join (data.map (rowHtml headers))
    ++ "</table>"

/-- Document text of `generate_html_report` before the ATA section
(the generation timestamp is a parameter standing for
`datetime.now().strftime`). -/
def htmlDocHead (now : String) : String :=
  "<!DOCTYPE html>\n<html lang=\"en\">\n<head>\n    <meta charset=\"UTF-8\">\n    <meta name=\"viewport\" content=\"width=device-width, initial-scale=1.0\">\n    <title>Disk Status Report</title>\n    <style>\n        body \x7b font-family: Arial, sans-serif; margin: 20px; \x7d\n        h1, h2 \x7b color: #333; \x7d\n        table \x7b border-collapse: collapse; width: 100%; margin-bottom: 20px; \x7d\n        th, td \x7b border: 1px solid #ddd; padding: 8px; text-align: left; \x7d\n        th \x7b background-color: #f2f2f2; \x7d\n        tr:nth-child(even) \x7b background-color: #f9f9f9; \x7d\n        .warning \x7b background-color: #fff3cd; \x7d\n        .danger \x7b background-color: #f8d7da; \x7d\n        .footer \x7b margin-top: 30px; font-size: 0.8em; color: #666; \x7d\n    </style>\n</head>\n<body>\n    <h1>Disk Status Report</h1>\n    <p>Generated on " ++ now ++ "</p>\n    \n    <h2>ATA Devices</h2>\n    "

/-- Document text of `generate_html_report` after the NVMe section. -/
def htmlDocTail : String :=
  "\n    \n    <div class=\"footer\">\n        <p>Report generated by DiskHealthMonitor</p>\n    </div>\n</body>\n</html>"

/-- `generate_html_report(self, analyzed_data, html_file)`: the document
content written to the HTML file. -/
def generate_html_report (A : Analyzed) (now : String) : String :=
  htmlDocHead now
    ++ (if A.ata.isEmpty then "<p>No ATA devices found.</p>"
        else generate_html_table
          ["Type", "Power-on Hours", "Temperature", "Reallocated Sectors"] A.ata)
    ++ "\n    \n    <h2>NVMe Devices</h2>\n    "
    ++ (if A.nvme.isEmpty then "<p>No NVMe devices found.</p>"
        else generate_html_table ["Type", "Power-on Hours", "Temperature"] A.nvme)
    ++ htmlDocTail

/-- The input directory as the loader sees it: either missing, or a
listing of file names with the outcome of opening-and-parsing each. -/
inductive DirListing where
  | missing
  | files (entries : List (String × Except String Json))

/-- `filename.endswith(".json")`: case-sensitive exact suffix match,
modelled on the character list. -/
def endsWithJson (filename : String) : Bool :=
  decide (List.IsSuffix ".json".data filename.data)

/-- The per-file loop of `load_json_data`: `.json` files that parse are
kept in listing order, failures are logged, other files ignored. -/
def loadFiles (json_dir : String) : List (String × Except String Json) → List String × List Json
  | [] => ([], [])
  | (filename, res) :: rest =>
    let (logs, ds) := loadFiles json_dir rest
    if endsWithJson filename then
      match res with
      | .ok j => (logs, j :: ds)
      | .error err =>
        (("Error reading JSON file " ++ json_dir ++ "/" ++ filename ++ ": " ++ err) :: logs, ds)
    else
      (logs, ds)

/-- `load_json_data(self)`: error log entries produced, and the loaded
records in directory-listing order. -/
def load_json_data (json_dir : String) : DirListing → List String × List Json
  | .missing => (["Directory " ++ json_dir ++ " not found."], [])
  | .files entries => loadFiles json_dir entries

/-- Observable effects of one `run()`: whether the "No data found"
message was printed, the CSV file written (path and lines), the HTML
file written (path and content), and the boolean returned. -/
structure RunEffects where
  printedNoData : Bool
  csvOut : Option (String × List String)
  htmlOut : Option (String × String)
  result : Bool

/-- `run(self)` from `src/normalizer.py`, over the already loaded
records: empty input short-circuits before any output file; otherwise
analyze, display, save CSV, and - unconditionally - write the HTML
report at its default filename `report.html`. -/
def run (output_file : String) (records : List Json) (now : String) :
    Except String RunEffects :=
  if records.isEmpty then
    .ok ⟨true, none, none, false⟩
  else do
    let A ← analyze_data records
    return ⟨false, some (output_file, csvLines A),
      some ("report.html", generate_html_report A now), true⟩

/-- The parsed command-line surface of `main()`. -/
structure Args where
  directory : String
  output : String
  html : Bool
  log : String

/-- `main()` from `src/normalizer.py`: builds the monitor from the
parsed arguments and calls `run`.  The parsed `--html` flag is never
consulted, exactly as in the source. -/
def mainProg (args : Args) (listing : DirListing) (now : String) :
    Except String RunEffects :=
  run args.output (load_json_data args.directory listing).2 now

/-- A well-formed ATA record (used as concrete test input). -/
def ataRec1 : Json :=
  .obj [("ata_smart_attributes",
          .obj [("table", .arr [.obj [("name", .str "Reallocated_Sector_Ct"),
                                      ("value", .num 0)]])]),
        ("power_on_time", .obj [("hours", .num 100)]),
        ("temperature", .obj [("current", .num 30)])]

/-- A well-formed NVMe record (used as concrete test input). -/
def nvmeRec1 : Json :=
  .obj [("nvme_smart_health_information",
          .obj [("power_on_hours", .num 100), ("temperature", .num 30)])]

/-- An ATA-classified record whose `power_on_time` block is absent. -/
def ataNoPowerBlock : Json :=
  .obj [("ata_smart_attributes", .obj [("table", .arr [])])]

/-- A structured record of unrecognized shape. -/
def unknownRec : Json := .obj [("foo", .num 1)]

/-- Predicate under which the attribute scan selects an entry. -/
def isReallocName (e : Json) : Bool :=
  match pyGetItem e "name" with
  | .ok (.str s) => s == "Reallocated_Sector_Ct"
  | _ => false

/-- Is the record a structured mapping (a JSON object)? -/
def Json.isObj : Json → Bool
  | .obj _ => true
  | _ => false

theorem bind_ok_ex {α β : Type} (a : α) (f : α → Except String β) :
    (Except.ok a : Except String α) >>= f = f a := rfl

theorem bind_err_ex {α β : Type} (e : String) (f : α → Except String β) :
    (Except.error e : Except String α) >>= f = Except.error e := rfl

theorem extract_ata_inv (d : Json) (i : Int) (row : List Json)
    (h : extract_ata_data d i = .ok row) :
    ∃ potBlock p tempBlock t attrs tblJ entries v,
      pyGetItem d "power_on_time" = .ok potBlock
      ∧ pyGet potBlock "hours" (.str "N/A") = .ok p
      ∧ pyGetItem d "temperature" = .ok tempBlock
      ∧ pyGet tempBlock "current" (.str "N/A") = .ok t
      ∧ pyGetItem d "ata_smart_attributes" = .ok attrs
      ∧ pyGetItem attrs "table" = .ok tblJ
      ∧ pyIter tblJ = .ok entries
      ∧ scanTable entries = .ok v
      ∧ row = [.num i, .str "ATA", p, t, v] := by
  unfold extract_ata_data at h
  cases h1 : pyGetItem d "power_on_time" with
  | error e => rw [h1, bind_err_ex] at h; simp at h
  | ok potBlock =>
  rw [h1, bind_ok_ex] at h
  cases h2 : pyGet potBlock "hours" (.str "N/A") with
  | error e => rw [h2, bind_err_ex] at h; simp at h
  | ok p =>
  rw [h2, bind_ok_ex] at h
  cases h3 : pyGetItem d "temperature" with
  | error e => rw [h3, bind_err_ex] at h; simp at h
  | ok tempBlock =>
  rw [h3, bind_ok_ex] at h
  cases h4 : pyGet tempBlock "current" (.str "N/A") with
  | error e => rw [h4, bind_err_ex] at h; simp at h
  | ok t =>
  rw [h4, bind_ok_ex] at h
  cases h5 : pyGetItem d "ata_smart_attributes" with
  | error e => rw [h5, bind_err_ex] at h; simp at h
  | ok attrs =>
  rw [h5, bind_ok_ex] at h
  cases h6 : pyGetItem attrs "table" with
  | error e => rw [h6, bind_err_ex] at h; simp at h
  | ok tblJ =>
  rw [h6, bind_ok_ex] at h
  cases h7 : pyIter tblJ with
  | error e => rw [h7, bind_err_ex] at h; simp at h
  | ok entries =>
  rw [h7, bind_ok_ex] at h
  cases h8 : scanTable entries with
  | error e => rw [h8, bind_err_ex] at h; simp at h
  | ok v =>
  rw [h8, bind_ok_ex] at h
  refine ⟨potBlock, p, tempBlock, t, attrs, tblJ, entries, v,
    rfl, h2, rfl, h4, rfl, h6, h7, h8, ?_⟩
  simpa [pure, Except.pure] using h.symm

theorem extract_nvme_inv (d : Json) (i : Int) (row : List Json)
    (h : extract_nvme_data d i = .ok row) :
    ∃ health_info p t,
      pyGetItem d "nvme_smart_health_information" = .ok health_info
      ∧ pyGet health_info "power_on_hours" (.str "N/A") = .ok p
      ∧ pyGet health_info "temperature" (.str "N/A") = .ok t
      ∧ row = [.num i, .str "NVMe", p, t, .str "N/A"] := by
  unfold extract_nvme_data at h
  cases h1 : pyGetItem d "nvme_smart_health_information" with
  | error e => rw [h1, bind_err_ex] at h; simp at h
  | ok health_info =>
  rw [h1, bind_ok_ex] at h
  cases h2 : pyGet health_info "power_on_hours" (.str "N/A") with
  | error e => rw [h2, bind_err_ex] at h; simp at h
  | ok p =>
  rw [h2, bind_ok_ex] at h
  cases h3 : pyGet health_info "temperature" (.str "N/A") with
  | error e => rw [h3, bind_err_ex] at h; simp at h
  | ok t =>
  rw [h3, bind_ok_ex] at h
  refine ⟨health_info, p, t, rfl, h2, h3, ?_⟩
  simpa [pure, Except.pure] using h.symm

/-- C1: refuted as stated.  `ataNoPowerBlock` is a structured mapping
classified as ATA, yet extraction raises `KeyError` because the whole
`power_on_time` block (not just a sub-field) is absent: the code indexes
`data["power_on_time"]` before calling `.get`. -/
theorem c1_counterexample :
    ataNoPowerBlock.isObj = true
    ∧ hasKeyE ataNoPowerBlock "ata_smart_attributes" = .ok true
    ∧ extract_ata_data ataNoPowerBlock 1 = .error "KeyError: power_on_time"
    ∧ analyze_data [ataNoPowerBlock] = .error "KeyError: power_on_time" :=
  ⟨rfl, rfl, rfl, rfl⟩

/-- C1 (amended): missing optional SUB-fields never make extraction
raise.  For an ATA record whose power-on-time and temperature blocks are
present mappings and whose attribute table scans successfully, extraction
returns a row with "N/A" for any absent "hours"/"current" sub-field; for
an NVMe record whose health block is a mapping, extraction always
returns a row with "N/A" for absent sub-fields.  (Extraction does raise
when an ATA block itself is absent - see the counterexample.) -/
theorem c1_extraction_amended :
    (∀ (d : Json) (i : Int) (pkvs tkvs : List (String × Json)) (attrs tblJ : Json)
        (entries : List Json) (v : Json),
      pyGetItem d "power_on_time" = .ok (.obj pkvs) →
      pyGetItem d "temperature" = .ok (.obj tkvs) →
      pyGetItem d "ata_smart_attributes" = .ok attrs →
      pyGetItem attrs "table" = .ok tblJ →
      pyIter tblJ = .ok entries →
      scanTable entries = .ok v →
      extract_ata_data d i = .ok [.num i, .str "ATA",
        (olookup pkvs "hours").getD (.str "N/A"),
        (olookup tkvs "current").getD (.str "N/A"), v])
    ∧ (∀ (d : Json) (i : Int) (hkvs : List (String × Json)),
      pyGetItem d "nvme_smart_health_information" = .ok (.obj hkvs) →
      extract_nvme_data d i = .ok [.num i, .str "NVMe",
        (olookup hkvs "power_on_hours").getD (.str "N/A"),
        (olookup hkvs "temperature").getD (.str "N/A"), .str "N/A"]) := by
  constructor
  · intro d i pkvs tkvs attrs tblJ entries v h1 h2 h3 h4 h5 h6
    unfold extract_ata_data
    rw [h1, bind_ok_ex]
    show (pyGet (.obj pkvs) "hours" (.str "N/A")) >>= _ = _
    rw [show pyGet (.obj pkvs) "hours" (.str "N/A")
          = .ok ((olookup pkvs "hours").getD (.str "N/A")) from rfl, bind_ok_ex]
    rw [h2, bind_ok_ex]
    rw [show pyGet (.obj tkvs) "current" (.str "N/A")
          = .ok ((olookup tkvs "current").getD (.str "N/A")) from rfl, bind_ok_ex]
    rw [h3, bind_ok_ex, h4, bind_ok_ex, h5, bind_ok_ex, h6, bind_ok_ex]
    rfl
  · intro d i hkvs h1
    unfold extract_nvme_data
    rw [h1, bind_ok_ex]
    rw [show pyGet (.obj hkvs) "power_on_hours" (.str "N/A")
          = .ok ((olookup hkvs "power_on_hours").getD (.str "N/A")) from rfl, bind_ok_ex]
    rw [show pyGet (.obj hkvs) "temperature" (.str "N/A")
          = .ok ((olookup hkvs "temperature").getD (.str "N/A")) from rfl, bind_ok_ex]
    rfl

/-- C1 (amended) witness: the amended theorem applied to two concrete
well-formed records, with all lookups evaluated. -/
theorem c1_extraction_amended_witness :
    extract_ata_data ataRec1 1 = .ok [.num 1, .str "ATA", .num 100, .num 30, .num 0]
    ∧ extract_nvme_data nvmeRec1 2
        = .ok [.num 2, .str "NVMe", .num 100, .num 30, .str "N/A"] := by
  constructor
  · exact c1_extraction_amended.1 ataRec1 1 [("hours", .num 100)] [("current", .num 30)]
      (.obj [("table", .arr [.obj [("name", .str "Reallocated_Sector_Ct"),
                                   ("value", .num 0)]])])
      (.arr [.obj [("name", .str "Reallocated_Sector_Ct"), ("value", .num 0)]])
      [.obj [("name", .str "Reallocated_Sector_Ct"), ("value", .num 0)]]
      (.num 0) rfl rfl rfl rfl rfl rfl
  · exact c1_extraction_amended.2 nvmeRec1 2
      [("power_on_hours", .num 100), ("temperature", .num 30)] rfl

theorem analyzeFrom_seqNums : ∀ (l : List Json) (k : Int) (A : Analyzed),
    analyzeFrom k l = .ok A →
    List.Sublist (seqNums A.all) ((List.range l.length).map (fun j => k + Int.ofNat j)) := by
  intro l
  induction l with
  | nil =>
    intro k A h
    unfold analyzeFrom at h
    cases h
    simp [seqNums]
  | cons d rest ih =>
    intro k A h
    unfold analyzeFrom at h
    have hr : (List.range (d :: rest).length).map (fun j => k + Int.ofNat j)
        = k :: (List.range rest.length).map (fun j => (k + 1) + Int.ofNat j) := by
      rw [List.length_cons, List.range_succ_eq_map, List.map_cons, List.map_map]
      refine congrArg₂ _ (by simp) (congrArg₂ _ ?_ rfl)
      funext j
      simp [Function.comp]
      ring
    rw [hr]
    cases h1 : hasKeyE d "ata_smart_attributes" with
    | error e => rw [h1, bind_err_ex] at h; simp at h
    | ok isAta =>
    rw [h1, bind_ok_ex] at h
    cases isAta with
    | true =>
      simp only [if_pos] at h
      cases h2 : extract_ata_data d k with
      | error e => rw [h2, bind_err_ex] at h; simp at h
      | ok row =>
      rw [h2, bind_ok_ex] at h
      cases h3 : analyzeFrom (k + 1) rest with
      | error e => rw [h3, bind_err_ex] at h; simp at h
      | ok A' =>
      rw [h3, bind_ok_ex] at h
      have hA : A = ⟨row.drop 1 :: A'.ata, A'.nvme, row :: A'.all⟩ := by
        simpa [pure, Except.pure] using h.symm
      subst hA
      obtain ⟨_, _, _, _, _, _, _, _, -, -, -, -, -, -, -, -, hrow⟩ :=
        extract_ata_inv d k row h2
      subst hrow
      exact List.Sublist.cons₂ _ (ih (k + 1) A' h3)
    | false =>
      simp only [Bool.false_eq_true, if_neg, ite_false] at h
      cases h1' : hasKeyE d "nvme_smart_health_information" with
      | error e => rw [h1', bind_err_ex] at h; simp at h
      | ok isNvme =>
      rw [h1', bind_ok_ex] at h
      cases isNvme with
      | true =>
        simp only [if_pos] at h
        cases h2 : extract_nvme_data d k with
        | error e => rw [h2, bind_err_ex] at h; simp at h
        | ok row =>
        rw [h2, bind_ok_ex] at h
        cases h3 : analyzeFrom (k + 1) rest with
        | error e => rw [h3, bind_err_ex] at h; simp at h
        | ok A' =>
        rw [h3, bind_ok_ex] at h
        have hA : A = ⟨A'.ata, row.drop 1 :: A'.nvme, row :: A'.all⟩ := by
          simpa [pure, Except.pure] using h.symm
        subst hA
        obtain ⟨_, _, _, -, -, -, hrow⟩ := extract_nvme_inv d k row h2
        subst hrow
        exact List.Sublist.cons₂ _ (ih (k + 1) A' h3)
      | false =>
        simp only [Bool.false_eq_true, if_neg, ite_false] at h
        exact List.Sublist.cons _ (ih (k + 1) A h)

/-- C2: refuted as stated.  An unrecognized-shape record still consumes
an `enumerate` index, so with an unrecognized record first, the single
recognized row of the full view carries sequence number 2, not 1: the
k-th row of the full view does not in general carry k. -/
theorem c2_counterexample :
    (analyze_data [unknownRec, ataRec1]).toOption.map (fun A => seqNums A.all) = some [2]
    ∧ (analyze_data [unknownRec, ataRec1]).toOption.map (fun A => seqNums A.all)
        ≠ some [1] :=
  ⟨rfl, by decide⟩

/-- C2 (amended): sequence numbers of the full view are strictly
increasing with no duplicates, and each equals the 1-based
position of its record in the load order - unrecognized records still consume a
position, so the numbers form a sublist of 1..n and gaps appear exactly
where unrecognized records were dropped.  The k-th row carries k only
when no unrecognized record precedes it. -/
theorem c2_sequence_amended (l : List Json) (A : Analyzed)
    (h : analyze_data l = .ok A) :
    List.Pairwise (· < ·) (seqNums A.all)
    ∧ List.Sublist (seqNums A.all) ((List.range l.length).map (fun j => 1 + Int.ofNat j)) := by
  have hs := analyzeFrom_seqNums l 1 A h
  refine ⟨?_, hs⟩
  exact List.Pairwise.sublist hs
    (List.Pairwise.map _ (fun a b hab => add_lt_add_left (Int.ofNat_lt.mpr hab) 1)
      (List.pairwise_lt_range l.length))

/-- C2 (amended) witness: the amended theorem applied to a concrete load
(unrecognized record, then ATA, then NVMe), every definition evaluated. -/
theorem c2_sequence_amended_witness :
    List.Pairwise (· < ·)
      (seqNums [[Json.num 2, .str "ATA", .num 100, .num 30, .num 0],
                [Json.num 3, .str "NVMe", .num 100, .num 30, .str "N/A"]])
    ∧ List.Sublist
        (seqNums [[Json.num 2, .str "ATA", .num 100, .num 30, .num 0],
                  [Json.num 3, .str "NVMe", .num 100, .num 30, .str "N/A"]])
        ((List.range 3).map (fun j => 1 + Int.ofNat j)) :=
  c2_sequence_amended [unknownRec, ataRec1, nvmeRec1]
    ⟨[[.str "ATA", .num 100, .num 30, .num 0]],
     [[.str "NVMe", .num 100, .num 30, .str "N/A"]],
     [[.num 2, .str "ATA", .num 100, .num 30, .num 0],
      [.num 3, .str "NVMe", .num 100, .num 30, .str "N/A"]]⟩ rfl

/-- C3: the code contradicts its own `--html` help text ("Also generate
an HTML report").  `main` parses the flag but never consults it and
`run` writes the HTML report unconditionally: the observable effects are
independent of the flag, and a run with the flag off still writes
`report.html`. -/
theorem c3_html_flag_ignored :
    (∀ (a : Args) (listing : DirListing) (now : String) (b : Bool),
      mainProg ⟨a.directory, a.output, b, a.log⟩ listing now = mainProg a listing now)
    ∧ (Args.mk "disk_exs" "report.csv" false "error_log.txt").html = false
    ∧ (mainProg ⟨"disk_exs", "report.csv", false, "error_log.txt"⟩
          (.files [("a.json", .ok ataRec1)]) "01/01/2026 00:00:00").toOption.map
          (fun e => e.htmlOut.map Prod.fst) = some (some "report.html") :=
  ⟨fun _ _ _ _ => rfl, rfl, by rfl⟩

/-- C8: a missing input directory makes the loader log exactly one error
naming the path and return no records, and a run over zero records
prints the "No data found" message, returns `False`, and writes neither
the CSV nor the HTML file. -/
theorem c8_missing_dir_no_outputs :
    ∀ (dir out now : String),
      load_json_data dir .missing = (["Directory " ++ dir ++ " not found."], [])
      ∧ run out [] now = .ok ⟨true, none, none, false⟩
      ∧ run out (load_json_data dir .missing).2 now = .ok ⟨true, none, none, false⟩ :=
  fun _ _ _ => ⟨rfl, rfl, rfl⟩

theorem analyzeFrom_shapes : ∀ (l : List Json) (k : Int) (A : Analyzed),
    analyzeFrom k l = .ok A →
    (∀ r ∈ A.ata, ∃ p t v, r = [.str "ATA", p, t, v])
    ∧ (∀ r ∈ A.nvme, ∃ p t, r = [.str "NVMe", p, t, .str "N/A"])
    ∧ (∀ r ∈ A.all, r.length = 5) := by
  intro l
  induction l with
  | nil =>
    intro k A h
    unfold analyzeFrom at h
    cases h
    exact ⟨by simp, by simp, by simp⟩
  | cons d rest ih =>
    intro k A h
    unfold analyzeFrom at h
    cases h1 : hasKeyE d "ata_smart_attributes" with
    | error e => rw [h1, bind_err_ex] at h; simp at h
    | ok isAta =>
    rw [h1, bind_ok_ex] at h
    cases isAta with
    | true =>
      simp only [if_pos] at h
      cases h2 : extract_ata_data d k with
      | error e => rw [h2, bind_err_ex] at h; simp at h
      | ok row =>
      rw [h2, bind_ok_ex] at h
      cases h3 : analyzeFrom (k + 1) rest with
      | error e => rw [h3, bind_err_ex] at h; simp at h
      | ok A' =>
      rw [h3, bind_ok_ex] at h
      have hA : A = ⟨row.drop 1 :: A'.ata, A'.nvme, row :: A'.all⟩ := by
        simpa [pure, Except.pure] using h.symm
      subst hA
      obtain ⟨_, p, _, t, _, _, _, v, -, -, -, -, -, -, -, -, hrow⟩ :=
        extract_ata_inv d k row h2
      subst hrow
      obtain ⟨ihA, ihN, ihL⟩ := ih (k + 1) A' h3
      refine ⟨?_, ihN, ?_⟩
      · intro r hr
        rcases List.mem_cons.mp hr with rfl | hr
        · exact ⟨p, t, v, rfl⟩
        · exact ihA r hr
      · intro r hr
        rcases List.mem_cons.mp hr with rfl | hr
        · rfl
        · exact ihL r hr
    | false =>
      simp only [Bool.false_eq_true, if_neg, ite_false] at h
      cases h1' : hasKeyE d "nvme_smart_health_information" with
      | error e => rw [h1', bind_err_ex] at h; simp at h
      | ok isNvme =>
      rw [h1', bind_ok_ex] at h
      cases isNvme with
      | true =>
        simp only [if_pos] at h
        cases h2 : extract_nvme_data d k with
        | error e => rw [h2, bind_err_ex] at h; simp at h
        | ok row =>
        rw [h2, bind_ok_ex] at h
        cases h3 : analyzeFrom (k + 1) rest with
        | error e => rw [h3, bind_err_ex] at h; simp at h
        | ok A' =>
        rw [h3, bind_ok_ex] at h
        have hA : A = ⟨A'.ata, row.drop 1 :: A'.nvme, row :: A'.all⟩ := by
          simpa [pure, Except.pure] using h.symm
        subst hA
        obtain ⟨_, p, t, -, -, -, hrow⟩ := extract_nvme_inv d k row h2
        subst hrow
        obtain ⟨ihA, ihN, ihL⟩ := ih (k + 1) A' h3
        refine ⟨ihA, ?_, ?_⟩
        · intro r hr
          rcases List.mem_cons.mp hr with rfl | hr
          · exact ⟨p, t, rfl⟩
          · exact ihN r hr
        · intro r hr
          rcases List.mem_cons.mp hr with rfl | hr
          · rfl
          · exact ihL r hr
      | false =>
        simp only [Bool.false_eq_true, if_neg, ite_false] at h
        exact ih (k + 1) A h

/-- C7: refuted as stated.  For a single NVMe record, the display row
handed to the NVMe console table still carries four fields - the
trailing reallocated-sectors "N/A" included - even though the header row
has only three: only the header list omits the column. -/
theorem c7_counterexample :
    (analyze_data [nvmeRec1]).toOption.map (fun A => (display_report A).2)
      = some (.table ["Type", "Power-on Hours", "Temperature"]
          [[.str "NVMe", .num 100, .num 30, .str "N/A"]])
    ∧ ([Json.str "NVMe", .num 100, .num 30, .str "N/A"].length ≠ 3) :=
  ⟨rfl, by decide⟩

/-- C7 (amended): the header row of the NVMe console table has exactly the
three fields Type, Power-on Hours, Temperature, but every NVMe display
row still carries four fields ending in the reallocated-sectors "N/A"
sentinel; ATA display rows carry four fields as well. -/
theorem c7_console_nvme_amended (l : List Json) (A : Analyzed)
    (h : analyze_data l = .ok A) :
    ((display_report A).2 = .msg "No NVMe devices found."
      ∨ (display_report A).2 = .table ["Type", "Power-on Hours", "Temperature"] A.nvme)
    ∧ (∀ r ∈ A.nvme, ∃ p t, r = [.str "NVMe", p, t, .str "N/A"])
    ∧ (∀ r ∈ A.ata, ∃ p t v, r = [.str "ATA", p, t, v]) := by
  obtain ⟨hA, hN, -⟩ := analyzeFrom_shapes l 1 A h
  refine ⟨?_, hN, hA⟩
  unfold display_report
  by_cases he : A.nvme.isEmpty <;> simp [he]

/-- C7 (amended) witness: the amended theorem applied to a one-record
NVMe load, exhibiting the four-field display row. -/
theorem c7_console_nvme_amended_witness :
    ∃ p t, ([Json.str "NVMe", Json.num 100, Json.num 30, Json.str "N/A"] : List Json)
      = [.str "NVMe", p, t, .str "N/A"] :=
  (c7_console_nvme_amended [nvmeRec1]
    ⟨[], [[.str "NVMe", .num 100, .num 30, .str "N/A"]],
     [[.num 1, .str "NVMe", .num 100, .num 30, .str "N/A"]]⟩ rfl).2.1
    _ (List.Mem.head _)

/-- C9: confirmed.  The HTML table generator performs no escaping: every
rendered cell is one of the three literal templates with the raw cell
string value inserted verbatim, so HTML-special characters pass through
as raw markup. -/
theorem c9_html_no_escaping :
    (∀ (headers : List String) (i : Nat) (s : String),
      cellHtml headers i s = tdPlain s
      ∨ cellHtml headers i s = tdClass "warning" s
      ∨ cellHtml headers i s = tdClass "danger" s)
    ∧ (∀ s : String, tdPlain s = "<td>" ++ s ++ "</td>")
    ∧ (∀ c s : String, tdClass c s = "<td class=\"" ++ c ++ "\">" ++ s ++ "</td>")
    ∧ cellHtml ["Type"] 0 "<i>&amp;" = "<td><i>&amp;</td>" := by
  refine ⟨?_, fun _ => rfl, fun _ _ => rfl, rfl⟩
  intro headers i s
  unfold cellHtml
  split_ifs <;>
    first
      | exact Or.inl rfl
      | (cases hp : pyInt? s with
          | none => exact Or.inl rfl
          | some n =>
            dsimp only
            split_ifs <;>
              first
                | exact Or.inl rfl
                | exact Or.inr (Or.inl rfl)
                | exact Or.inr (Or.inr rfl))

theorem cellsFrom_out (headers : List String) :
    ∀ (row : List Json) (i : Nat), headers.length ≤ i → cellsFrom headers i row = "" := by
  intro row
  induction row with
  | nil => intro i _; rfl
  | cons c cs ih =>
    intro i hi
    unfold cellsFrom
    rw [if_neg (by omega), ih (i + 1) (by omega)]
    rfl

theorem cellsFrom_take (headers : List String) :
    ∀ (row : List Json) (i : Nat),
      cellsFrom headers i row = cellsFrom headers i (row.take (headers.length - i)) := by
  intro row
  induction row with
  | nil => intro i; simp
  | cons c cs ih =>
    intro i
    by_cases hi : i < headers.length
    · have hk : headers.length - i = (headers.length - (i + 1)) + 1 := by omega
      rw [hk, List.take_succ_cons]
      unfold cellsFrom
      rw [ih (i + 1)]
    · rw [cellsFrom_out headers (c :: cs) i (by omega)]
      have hz : headers.length - i = 0 := by omega
      rw [hz, List.take_zero]
      rfl

/-- C10: confirmed.  The HTML cell loop drops every cell whose index
reaches the header count, so a row renders identically to its first
`headers.length` cells; in particular the trailing "N/A"
reallocated-sectors element of a four-field NVMe display row never
appears in the three-header NVMe table. -/
theorem c10_html_cell_truncation :
    (∀ (headers : List String) (row : List Json),
      rowHtml headers row = rowHtml headers (row.take headers.length))
    ∧ (∀ (a b c : Json),
      rowHtml ["Type", "Power-on Hours", "Temperature"] [a, b, c, .str "N/A"]
        = rowHtml ["Type", "Power-on Hours", "Temperature"] [a, b, c]) := by
  have hmain : ∀ (headers : List String) (row : List Json),
      rowHtml headers row = rowHtml headers (row.take headers.length) := by
    intro headers row
    unfold rowHtml
    have h0 := cellsFrom_take headers row 0
    rw [Nat.sub_zero] at h0
    rw [h0]
  exact ⟨hmain, fun a b c => by rw [hmain]; rfl⟩

/-- C5: confirmed.  Rendered cells: a cell whose string value is "0"
never gets any style (in particular the reallocated-sectors "warning");
a power-on-hours cell parsing to more than 30000 always gets "warning";
a temperature cell parsing to more than 50 always gets "danger"; and a
cell equal to "N/A" or failing integer parsing is rendered plain in
every column. -/
theorem c5_html_styling :
    (∀ (headers : List String) (i : Nat), cellHtml headers i "0" = tdPlain "0")
    ∧ (∀ (headers : List String) (s : String) (n : Int),
        headers[1]? = some "Power-on Hours" → pyInt? s = some n → 30000 < n →
        cellHtml headers 1 s = tdClass "warning" s)
    ∧ (∀ (headers : List String) (s : String) (n : Int),
        headers[2]? = some "Temperature" → pyInt? s = some n → 50 < n →
        cellHtml headers 2 s = tdClass "danger" s)
    ∧ (∀ (headers : List String) (i : Nat) (s : String),
        s = "N/A" ∨ pyInt? s = none → cellHtml headers i s = tdPlain s) := by
  have h0 : pyInt? "0" = some 0 := by decide
  have hna : pyInt? "N/A" = none := by decide
  refine ⟨?_, ?_, ?_, ?_⟩
  · intro headers i
    unfold cellHtml
    split_ifs <;> simp [h0]
  · intro headers s n h1 hp hn
    have hs : s ≠ "N/A" := by
      intro e
      rw [e, hna] at hp
      cases hp
    unfold cellHtml
    rw [if_neg (by simp), if_pos ⟨rfl, h1, hs⟩, hp]
    dsimp only
    rw [if_pos (by omega)]
  · intro headers s n h1 hp hn
    have hs : s ≠ "N/A" := by
      intro e
      rw [e, hna] at hp
      cases hp
    unfold cellHtml
    rw [if_neg (by simp), if_neg (by simp), if_pos ⟨rfl, h1, hs⟩, hp]
    dsimp only
    rw [if_pos (by omega)]
  · intro headers i s hor
    unfold cellHtml
    rcases hor with rfl | hp
    · split_ifs <;> simp_all
    · split_ifs <;> simp [hp]

/-- C5 witness: the styling theorem applied at concrete cells - "30001"
in power-on-hours is flagged "warning", "51" in temperature "danger",
"0" and "N/A" and an unparsable value stay plain. -/
theorem c5_html_styling_witness :
    cellHtml ["Type", "Power-on Hours", "Temperature", "Reallocated Sectors"] 1 "30001"
      = tdClass "warning" "30001"
    ∧ cellHtml ["Type", "Power-on Hours", "Temperature", "Reallocated Sectors"] 2 "51"
      = tdClass "danger" "51"
    ∧ cellHtml ["Type", "Power-on Hours", "Temperature", "Reallocated Sectors"] 3 "0"
      = tdPlain "0"
    ∧ cellHtml ["Type", "Power-on Hours", "Temperature", "Reallocated Sectors"] 3 "N/A"
      = tdPlain "N/A"
    ∧ cellHtml ["Type", "Power-on Hours", "Temperature", "Reallocated Sectors"] 3 "abc"
      = tdPlain "abc" :=
  by
  refine ⟨?_, ?_, ?_, ?_, ?_⟩
  · exact c5_html_styling.2.1 _ "30001" 30001 rfl (by decide) (by decide)
  · exact c5_html_styling.2.2.1 _ "51" 51 rfl (by decide) (by decide)
  · exact c5_html_styling.1 _ 3
  · exact c5_html_styling.2.2.2 _ 3 "N/A" (Or.inl rfl)
  · exact c5_html_styling.2.2.2 _ 3 "abc" (Or.inr (by decide))

theorem scanTable_cons (sect : Json) (rest : List Json) :
    scanTable (sect :: rest) = (do
      let name ← pyGetItem sect "name"
      match name with
      | .str s =>
        if s = "Reallocated_Sector_Ct" then pyGetItem sect "value" else scanTable rest
      | _ => scanTable rest) := rfl

theorem scanTable_find (entries : List Json)
    (h : ∀ e ∈ entries, ∃ nv, pyGetItem e "name" = .ok nv) :
    (∀ e, entries.find? isReallocName = some e → scanTable entries = pyGetItem e "value")
    ∧ (entries.find? isReallocName = none → scanTable entries = .ok (.str "N/A")) := by
  induction entries with
  | nil => exact ⟨fun e he => absurd he (by simp), fun _ => rfl⟩
  | cons e0 rest ih =>
    obtain ⟨nv, hnv⟩ := h e0 (List.Mem.head _)
    have hrest := ih fun e he => h e (List.Mem.tail _ he)
    by_cases hm : isReallocName e0
    · have hname : pyGetItem e0 "name" = .ok (.str "Reallocated_Sector_Ct") := by
        unfold isReallocName at hm
        rw [hnv] at hm
        cases nv <;> simp at hm
        rename_i s
        rw [hnv, hm]
      refine ⟨?_, ?_⟩
      · intro e he
        rw [List.find?_cons_of_pos _ hm] at he
        cases he
        rw [scanTable_cons, hname, bind_ok_ex]
        dsimp only
        rw [if_pos rfl]
      · intro he
        rw [List.find?_cons_of_pos _ hm] at he
        cases he
    · have hskip : scanTable (e0 :: rest) = scanTable rest := by
        rw [scanTable_cons, hnv, bind_ok_ex]
        unfold isReallocName at hm
        rw [hnv] at hm
        cases nv <;> try rfl
        rename_i s
        dsimp only
        have hs : ¬ s = "Reallocated_Sector_Ct" := by simpa using hm
        rw [if_neg hs]
      refine ⟨?_, ?_⟩
      · intro e he
        rw [List.find?_cons_of_neg _ hm] at he
        rw [hskip]
        exact hrest.1 e he
      · intro he
        rw [List.find?_cons_of_neg _ hm] at he
        rw [hskip]
        exact hrest.2 he

/-- C4: confirmed.  When every table entry has a "name", the scan
returns the "value" of the FIRST entry named exactly
"Reallocated_Sector_Ct" (later matches are never reached) and "N/A"
when no entry matches; and every successful ATA extraction puts exactly
the result of the scan in the reallocated-sectors (last) cell of the row. -/
theorem c4_reallocated_first_match :
    (∀ (entries : List Json),
      (∀ e ∈ entries, ∃ nv, pyGetItem e "name" = .ok nv) →
      (∀ e, entries.find? isReallocName = some e →
        scanTable entries = pyGetItem e "value")
      ∧ (entries.find? isReallocName = none → scanTable entries = .ok (.str "N/A")))
    ∧ (∀ (d : Json) (i : Int) (row : List Json),
      extract_ata_data d i = .ok row →
      ∃ attrs tblJ entries v,
        pyGetItem d "ata_smart_attributes" = .ok attrs
        ∧ pyGetItem attrs "table" = .ok tblJ
        ∧ pyIter tblJ = .ok entries
        ∧ scanTable entries = .ok v
        ∧ row.getLast? = some v) := by
  constructor
  · exact fun entries h => scanTable_find entries h
  · intro d i row h
    obtain ⟨_, p, _, t, attrs, tblJ, entries, v, -, -, -, -, h5, h6, h7, h8, hrow⟩ :=
      extract_ata_inv d i row h
    exact ⟨attrs, tblJ, entries, v, h5, h6, h7, h8, by rw [hrow]; rfl⟩

/-- C4 witness: the theorem applied to a concrete two-match table - the
scan returns the value 7 of the first match, not the 9 of the second - and to a
concrete successful extraction. -/
theorem c4_reallocated_first_match_witness :
    scanTable [.obj [("name", .str "Reallocated_Sector_Ct"), ("value", .num 7)],
               .obj [("name", .str "Reallocated_Sector_Ct"), ("value", .num 9)]]
      = .ok (.num 7) := by
  have h := (c4_reallocated_first_match.1
    [.obj [("name", .str "Reallocated_Sector_Ct"), ("value", .num 7)],
     .obj [("name", .str "Reallocated_Sector_Ct"), ("value", .num 9)]]
    (by
      intro e he
      rcases List.mem_cons.mp he with rfl | he
      · exact ⟨.str "Reallocated_Sector_Ct", rfl⟩
      · rcases List.mem_cons.mp he with rfl | he
        · exact ⟨.str "Reallocated_Sector_Ct", rfl⟩
        · cases he)).1
    (.obj [("name", .str "Reallocated_Sector_Ct"), ("value", .num 7)]) rfl
  rw [h]
  rfl

theorem dupQuotes_parse :
    ∀ (f rest acc : List Char), rest.head? ≠ some '"' →
      parseQuotedL (dupQuotes f ++ '"' :: rest) acc = (acc.reverse ++ f, rest) := by
  intro f
  induction f with
  | nil =>
    intro rest acc hr
    rw [show dupQuotes [] ++ '"' :: rest = '"' :: rest from rfl]
    rw [parseQuotedL.eq_def]
    dsimp only
    rw [if_pos rfl]
    cases rest with
    | nil => simp
    | cons c2 rest2 =>
      have hc2 : ¬ c2 = '"' := fun e => hr (by rw [e]; rfl)
      dsimp only
      rw [if_neg hc2]
      simp
  | cons c f' ih =>
    intro rest acc hr
    by_cases hc : c = '"'
    · subst hc
      rw [show dupQuotes ('"' :: f') ++ '"' :: rest
            = '"' :: ('"' :: (dupQuotes f' ++ '"' :: rest)) from by simp [dupQuotes]]
      rw [parseQuotedL.eq_def]
      dsimp only
      rw [if_pos rfl, if_pos rfl]
      rw [ih rest ('"' :: acc) hr]
      simp
    · rw [show dupQuotes (c :: f') ++ '"' :: rest
            = c :: (dupQuotes f' ++ '"' :: rest) from by simp [dupQuotes, hc]]
      rw [parseQuotedL.eq_def]
      dsimp only
      rw [if_neg hc]
      rw [ih rest (c :: acc) hr]
      simp

theorem not_special (f : List Char) (hq : f.any isCsvSpecial = false) :
    (∀ c ∈ f, (c != ',') = true) ∧ (∀ c ∈ f, ¬ c = '"') := by
  constructor <;> intro c hc
  · have h := List.any_eq_false.mp hq c hc
    simp [isCsvSpecial] at h
    simpa using h.1.1.1
  · have h := List.any_eq_false.mp hq c hc
    simp [isCsvSpecial] at h
    exact h.1.1.2

theorem takeWhile_noComma (f : List Char) (hf : ∀ c ∈ f, (c != ',') = true) :
    f.takeWhile (fun x => x != ',') = f ∧ f.dropWhile (fun x => x != ',') = [] := by
  induction f with
  | nil => simp
  | cons c cs ih =>
    have hc := hf c (List.Mem.head _)
    have ihr := ih fun x hx => hf x (List.Mem.tail _ hx)
    simp [List.takeWhile_cons, List.dropWhile_cons, hc, ihr.1, ihr.2]

theorem takeWhile_append_comma (f r : List Char) (hf : ∀ c ∈ f, (c != ',') = true) :
    (f ++ ',' :: r).takeWhile (fun x => x != ',') = f
    ∧ (f ++ ',' :: r).dropWhile (fun x => x != ',') = ',' :: r := by
  induction f with
  | nil => simp [List.takeWhile_cons, List.dropWhile_cons]
  | cons c cs ih =>
    have hc := hf c (List.Mem.head _)
    have ihr := ih fun x hx => hf x (List.Mem.tail _ hx)
    simp [List.takeWhile_cons, List.dropWhile_cons, hc, ihr.1, ihr.2]

theorem parseFieldsAux_writeRowL :
    ∀ (fuel : Nat) (fs : List (List Char)), fs ≠ [] →
      (writeRowL fs).length < fuel → parseFieldsAux fuel (writeRowL fs) = fs := by
  intro fuel
  induction fuel with
  | zero => intro fs _ hlen; omega
  | succ fuel ih =>
    rintro (_ | ⟨f, _ | ⟨g, gs⟩⟩) hne hlen
    · exact absurd rfl hne
    · simp only [writeRowL, escapeFieldL] at hlen ⊢
      by_cases hq : f.any isCsvSpecial = true
      · rw [if_pos hq] at hlen ⊢
        simp only [parseFieldsAux, if_pos rfl]
        have hp := dupQuotes_parse f [] [] (by simp)
        rw [hp]
        simp
      · have hq' : f.any isCsvSpecial = false := by simpa using hq
        rw [if_neg hq] at hlen ⊢
        obtain ⟨hnc, hnq⟩ := not_special f hq'
        cases f with
        | nil => rfl
        | cons c cs =>
          have hcq : ¬ c = '"' := hnq c (List.Mem.head _)
          simp only [parseFieldsAux, if_neg hcq]
          rw [(takeWhile_noComma (c :: cs) hnc).2, (takeWhile_noComma (c :: cs) hnc).1]
    · simp only [writeRowL] at hlen ⊢
      have hglen : (writeRowL (g :: gs)).length < fuel := by
        rw [List.length_append, List.length_cons] at hlen
        omega
      have ihW := ih (g :: gs) (by simp) hglen
      by_cases hq : f.any isCsvSpecial = true
      · simp only [escapeFieldL, if_pos hq] at hlen ⊢
        have hassoc : ('"' :: (dupQuotes f ++ ['"'])) ++ ',' :: writeRowL (g :: gs)
            = '"' :: (dupQuotes f ++ '"' :: (',' :: writeRowL (g :: gs))) := by
          simp
        rw [hassoc]
        simp only [parseFieldsAux, if_pos rfl]
        have hp := dupQuotes_parse f (',' :: writeRowL (g :: gs)) [] (by simp)
        rw [hp]
        simp [ihW]
      · have hq' : f.any isCsvSpecial = false := by simpa using hq
        simp only [escapeFieldL, if_neg hq] at hlen ⊢
        obtain ⟨hnc, hnq⟩ := not_special f hq'
        cases f with
        | nil =>
          simp only [List.nil_append]
          have hcq : ¬ ',' = '"' := by decide
          simp only [parseFieldsAux, if_neg hcq]
          simp [List.dropWhile_cons, List.takeWhile_cons, ihW]
        | cons c cs =>
          have hcq : ¬ c = '"' := hnq c (List.Mem.head _)
          rw [List.cons_append]
          simp only [parseFieldsAux, if_neg hcq]
          rw [show c :: (cs ++ ',' :: writeRowL (g :: gs))
                = (c :: cs) ++ ',' :: writeRowL (g :: gs) from rfl]
          rw [(takeWhile_append_comma (c :: cs) (writeRowL (g :: gs)) hnc).2,
              (takeWhile_append_comma (c :: cs) (writeRowL (g :: gs)) hnc).1]
          simp [ihW]

theorem parseRow_writeRow (fields : List String) (h : fields ≠ []) :
    parseRow (writeRow fields) = fields := by
  unfold parseRow writeRow parseFieldsL
  have hmap : fields.map String.data ≠ [] := by
    simpa using h
  rw [show (String.mk (writeRowL (fields.map String.data))).data
        = writeRowL (fields.map String.data) from rfl]
  rw [parseFieldsAux_writeRowL _ _ hmap (by omega)]
  rw [List.map_map]
  have hid : ((fun l => String.mk l) ∘ String.data) = id := by
    funext s
    rfl
  rw [hid, List.map_id]

/-- C6: refuted on the header literal.  The first line of the file is the
five header fields joined by bare commas -
`# Device,Type,Power-on Hours,Temperature,Reallocated Sectors` - not
the claimed string with spaces after the commas. -/
theorem c6_counterexample :
    writeRow csvHeader = "# Device,Type,Power-on Hours,Temperature,Reallocated Sectors"
    ∧ writeRow csvHeader
        ≠ "# Device, Type, Power-on Hours, Temperature, Reallocated Sectors" :=
  ⟨rfl, by decide⟩

/-- C6 (amended): the CSV file is the header row with fields
`# Device`, `Type`, `Power-on Hours`, `Temperature`,
`Reallocated Sectors` (serialized without spaces after the commas),
followed by one serialized record per full-view DeviceRow in original
load order; every written line - header and data rows alike - re-parses
as CSV to exactly the five string fields that were written, sentinel
"N/A" included verbatim. -/
theorem c6_csv_roundtrip_amended (l : List Json) (A : Analyzed)
    (h : analyze_data l = .ok A) :
    csvLines A = writeRow csvHeader :: A.all.map (fun r => writeRow (r.map csvCellStr))
    ∧ writeRow csvHeader = "# Device,Type,Power-on Hours,Temperature,Reallocated Sectors"
    ∧ parseRow (writeRow csvHeader) = csvHeader
    ∧ (csvLines A).length = A.all.length + 1
    ∧ ∀ r ∈ A.all, parseRow (writeRow (r.map csvCellStr)) = r.map csvCellStr := by
  obtain ⟨-, -, hlen5⟩ := analyzeFrom_shapes l 1 A h
  refine ⟨by simp [csvLines, save_report], rfl,
    parseRow_writeRow _ (by simp [csvHeader]),
    by simp [csvLines, save_report], ?_⟩
  intro r hr
  apply parseRow_writeRow
  intro he
  have hr0 := List.map_eq_nil_iff.mp he
  have h5 := hlen5 r hr
  rw [hr0] at h5
  cases h5

/-- C6 (amended) witness: the round-trip applied to the one data row of
a concrete one-record load. -/
theorem c6_csv_roundtrip_amended_witness :
    parseRow (writeRow (([.num 1, .str "ATA", .num 100, .num 30, .num 0] : List Json).map
        csvCellStr))
      = ([.num 1, .str "ATA", .num 100, .num 30, .num 0] : List Json).map csvCellStr :=
  (c6_csv_roundtrip_amended [ataRec1]
    ⟨[[.str "ATA", .num 100, .num 30, .num 0]], [],
     [[.num 1, .str "ATA", .num 100, .num 30, .num 0]]⟩ rfl).2.2.2.2
    _ (List.Mem.head _)
